import Mathlib

/-
Verification of the Melanin Click provisioning and lifecycle manager
(melaninclick.py and melaninclick_macos.py) against its specification.

The Python source is shallowly embedded: pure helpers become Lean
functions; the effectful install worker and the storage-checking handler
become functions from their decision inputs (disk query outcome, archive
validity, cancellation-flag value, ...) to the ordered list of observable
events they perform plus the resulting terminal flags; the orchestrator
becomes a step function on an explicit UI state driven by event traces.
-/

namespace MelaninClick

/-! ## Platform model

`platform.system()` values relevant to the program: "Darwin", "Linux",
"Windows", with `other` covering any other return value (the source's
final `else` branches). `get_architecture` (melaninclick.py:55-63)
normalizes the machine string to one of three values. -/

inductive OS
  | darwin
  | linux
  | windows
  | other
deriving DecidableEq, Repr

inductive Arch
  | x86_64
  | arm64
  | unknown
deriving DecidableEq, Repr

inductive Software
  | bitcoin
  | whive
deriving DecidableEq, Repr

/-- Translation of `get_architecture` (melaninclick.py:55-63): the lowered
machine string is normalized by membership in two alias lists. -/
def get_architecture (machine : String) : Arch :=
  if machine = "x86_64" ∨ machine = "amd64" ∨ machine = "i386" ∨ machine = "i686" then
    Arch.x86_64
  else if machine = "arm64" ∨ machine = "aarch64" then
    Arch.arm64
  else
    Arch.unknown

/-! ## String helpers

Executable substring and suffix tests over the character lists of
strings, used to state the URL-token claims. -/

/-- `startsWithChars pat l` is true when `pat` is an initial segment of `l`. -/
def startsWithChars : List Char → List Char → Bool
  | [], _ => true
  | _ :: _, [] => false
  | a :: as, b :: bs => a == b && startsWithChars as bs

/-- `hasSub pat l` is true when `pat` occurs contiguously inside `l`. -/
def hasSub (pat : List Char) : List Char → Bool
  | [] => startsWithChars pat []
  | b :: bs => startsWithChars pat (b :: bs) || hasSub pat bs

/-- `strHasSub s pat` : `pat` occurs as a substring of `s`. -/
def strHasSub (s pat : String) : Bool :=
  hasSub pat.data s.data

/-- `endsWithStr s suf` : `suf` is a suffix of `s`. -/
def endsWithStr (s suf : String) : Bool :=
  startsWithChars suf.data.reverse s.data.reverse

/-! ## Artifact locator (melaninclick.py:32-34, 65-103)

The two URL-selection functions, with the f-string version constants
interpolated exactly as in the source. -/

def BITCOIN_VERSION : String := "28.2"

def WHIVE_VERSION : String := "22.2.3"

/-- Translation of `get_bitcoin_download_url` (melaninclick.py:65-84). -/
def get_bitcoin_download_url (os_type : OS) (arch : Arch) : String :=
  match os_type with
  | OS.darwin =>
    if arch = Arch.arm64 then
      "https://bitcoincore.org/bin/bitcoin-core-" ++ BITCOIN_VERSION ++ "/bitcoin-"
        ++ BITCOIN_VERSION ++ "-arm64-apple-darwin.tar.gz"
    else
      "https://bitcoincore.org/bin/bitcoin-core-" ++ BITCOIN_VERSION ++ "/bitcoin-"
        ++ BITCOIN_VERSION ++ "-x86_64-apple-darwin.tar.gz"
  | OS.linux =>
    if arch = Arch.arm64 then
      "https://bitcoincore.org/bin/bitcoin-core-" ++ BITCOIN_VERSION ++ "/bitcoin-"
        ++ BITCOIN_VERSION ++ "-aarch64-linux-gnu.tar.gz"
    else
      "https://bitcoincore.org/bin/bitcoin-core-" ++ BITCOIN_VERSION ++ "/bitcoin-"
        ++ BITCOIN_VERSION ++ "-x86_64-linux-gnu.tar.gz"
  | OS.windows =>
    "https://bitcoincore.org/bin/bitcoin-core-" ++ BITCOIN_VERSION ++ "/bitcoin-"
      ++ BITCOIN_VERSION ++ "-win64.zip"
  | OS.other =>
    "https://bitcoincore.org/bin/bitcoin-core-" ++ BITCOIN_VERSION ++ "/bitcoin-"
      ++ BITCOIN_VERSION ++ "-x86_64-apple-darwin.tar.gz"

/-- Translation of `get_whive_download_url` (melaninclick.py:86-103).  Note
the Linux branch ignores the architecture: the source comment reads "For
Linux, we'll default to x86_64 as arm64 might not be available". -/
def get_whive_download_url (os_type : OS) (arch : Arch) : String :=
  match os_type with
  | OS.darwin =>
    if arch = Arch.arm64 then
      "https://github.com/whiveio/whive_releases/releases/download/" ++ WHIVE_VERSION
        ++ "/whive-ventura-" ++ WHIVE_VERSION ++ "-arm64.tar.gz"
    else
      "https://github.com/whiveio/whive_releases/releases/download/" ++ WHIVE_VERSION
        ++ "/whive-ventura-" ++ WHIVE_VERSION ++ "-osx64.tar.gz"
  | OS.linux =>
    "https://github.com/whiveio/whive_releases/releases/download/" ++ WHIVE_VERSION
      ++ "/whive-" ++ WHIVE_VERSION ++ "-x86_64-linux-gnu.tar.gz"
  | OS.windows =>
    "https://github.com/whiveio/whive_releases/releases/download/" ++ WHIVE_VERSION
      ++ "/whive-" ++ WHIVE_VERSION ++ "-win64.zip"
  | OS.other =>
    "https://github.com/whiveio/whive_releases/releases/download/" ++ WHIVE_VERSION
      ++ "/whive-ventura-" ++ WHIVE_VERSION ++ "-osx64.tar.gz"

/-- URL selection keyed by software, dispatching to the two source functions. -/
def downloadUrl : Software → OS → Arch → String
  | Software.bitcoin => get_bitcoin_download_url
  | Software.whive => get_whive_download_url

/-- The supported (OS, architecture) pairs of the spec's PlatformTag enum:
macOS and Linux on x86_64 or arm64, Windows on x86_64. -/
def supportedPair : OS → Arch → Bool
  | OS.darwin, Arch.x86_64 => true
  | OS.darwin, Arch.arm64 => true
  | OS.linux, Arch.x86_64 => true
  | OS.linux, Arch.arm64 => true
  | OS.windows, Arch.x86_64 => true
  | _, _ => false

/-- Modelled from the spec (section 6 URL templates): the OS token that a
release URL for the given software and OS is expected to contain.  The
spec's templates use an os-suffix per vendor: bitcoin uses apple-darwin /
linux-gnu / win64, whive uses ventura / linux-gnu / win64. -/
def expectedOsToken : Software → OS → String
  | Software.bitcoin, OS.darwin => "apple-darwin"
  | Software.whive, OS.darwin => "ventura"
  | _, OS.linux => "linux-gnu"
  | _, _ => "win64"

/-- Modelled from the spec (section 6 URL templates): the architecture tokens
any of which counts as naming the given architecture in a release URL. -/
def expectedArchTokens : Arch → List String
  | Arch.arm64 => ["arm64", "aarch64"]
  | Arch.x86_64 => ["x86_64", "osx64", "win64"]
  | Arch.unknown => []

/-- C2 counterexample: on the supported pair (Linux, arm64) the whive URL
names no arm64-family architecture token at all — it is the x86_64 Linux
artifact (deliberate fallback in the source, melaninclick.py:96-98), so
the URL cannot contain the expected architecture token for the pair. -/
theorem C2_counterexample :
    supportedPair OS.linux Arch.arm64 = true
    ∧ strHasSub (get_whive_download_url OS.linux Arch.arm64) "arm64" = false
    ∧ strHasSub (get_whive_download_url OS.linux Arch.arm64) "aarch64" = false
    ∧ get_whive_download_url OS.linux Arch.arm64
        = get_whive_download_url OS.linux Arch.x86_64 := by
  refine ⟨rfl, by decide, by decide, rfl⟩

/-- C2 amended: for every supported (OS, architecture) pair and each
software, except whive on (Linux, arm64), the selected URL contains the
expected OS token and an expected architecture token, and its archive
extension is .zip exactly when the OS is Windows (.tar.gz otherwise);
whive on (Linux, arm64) instead falls back to the x86_64 Linux artifact,
which is still a .tar.gz archive. -/
theorem C2_amended (sw : Software) (os : OS) (arch : Arch)
    (hs : supportedPair os arch = true)
    (hx : ¬(sw = Software.whive ∧ os = OS.linux ∧ arch = Arch.arm64)) :
    strHasSub (downloadUrl sw os arch) (expectedOsToken sw os) = true
    ∧ (expectedArchTokens arch).any (fun t => strHasSub (downloadUrl sw os arch) t) = true
    ∧ (endsWithStr (downloadUrl sw os arch) ".zip" = true ↔ os = OS.windows)
    ∧ (os ≠ OS.windows → endsWithStr (downloadUrl sw os arch) ".tar.gz" = true) := by
  cases sw <;> cases os <;> cases arch <;>
    first
      | exact absurd hs (by decide)
      | exact ⟨by decide, by decide, by decide, by decide⟩
      | exact absurd ⟨rfl, rfl, rfl⟩ hx

/-- Closed witness for C2_amended at (bitcoin, Linux, arm64). -/
theorem C2_witness :
    (supportedPair OS.linux Arch.arm64 = true
      ∧ ¬(Software.bitcoin = Software.whive ∧ OS.linux = OS.linux ∧ Arch.arm64 = Arch.arm64))
    ∧ (strHasSub (downloadUrl Software.bitcoin OS.linux Arch.arm64)
          (expectedOsToken Software.bitcoin OS.linux) = true
        ∧ (expectedArchTokens Arch.arm64).any
            (fun t => strHasSub (downloadUrl Software.bitcoin OS.linux Arch.arm64) t) = true
        ∧ (endsWithStr (downloadUrl Software.bitcoin OS.linux Arch.arm64) ".zip" = true
            ↔ OS.linux = OS.windows)
        ∧ (OS.linux ≠ OS.windows →
            endsWithStr (downloadUrl Software.bitcoin OS.linux Arch.arm64) ".tar.gz" = true)) :=
  ⟨⟨by decide, by decide⟩, C2_amended Software.bitcoin OS.linux Arch.arm64 (by decide) (by decide)⟩

/-! ## Storage guard and the storage-checking handlers

`check_disk_space` (melaninclick.py:119-129): on Windows the result
buffer starts at 0 and is only written by a successful kernel query, so a
failed query reports 0 GB; on macOS/Linux `os.statvfs` raises `OSError`
on failure, modelled by an `Option` input to the handlers (`none` = the
query raised). -/

/-- Windows branch of `check_disk_space` (melaninclick.py:121-126):
`free_bytes` is initialized to 0 and updated only by a successful
`GetDiskFreeSpaceExW` call, so a failed query yields 0 GB. -/
def check_disk_space_windows (queryOk : Bool) (freeGB : ℚ) : ℚ :=
  if queryOk then freeGB else 0

/-- The `update_output` calls made by the two storage-checking handlers,
one constructor per call site (melaninclick.py:517, 522, 527, 533, 539,
550, 555, 559, 565).  Severity: `skipping*` carries the "success" tag,
`insufficient*` the "error" tag, the rest no tag. -/
inductive StorageMsg
  | skipping
  | checking
  | detectedFull (gb : ℚ)
  | detectedPruned (gb : ℚ)
  | insufficient (gb : ℚ)
  | skippingWhive
  | checkingWhive
  | installingWhive (gb : ℚ)
  | insufficientWhive (gb : ℚ)
deriving DecidableEq

/-- True exactly for the messages emitted with the "error" tag. -/
def StorageMsg.isError : StorageMsg → Bool
  | StorageMsg.insufficient _ => true
  | StorageMsg.insufficientWhive _ => true
  | _ => false

/-- Result of a storage-checking handler: the ordered `update_output`
calls, whether a worker thread was spawned (`some prune` carries the
prune argument passed to `install`), whether an uncaught exception
escaped the handler, and the progress/cancel/run-button UI state it
leaves behind (relative to progress stopped, cancel disabled, run
buttons disabled on entry). -/
structure StorageResult where
  msgs : List StorageMsg
  spawned : Option Bool
  raised : Bool
  progressRunning : Bool
  cancelEnabled : Bool
  runButtonsEnabled : Bool
deriving DecidableEq

/-- Translation of `InstallPage.check_storage_and_install_bitcoin`
(melaninclick.py:509-540).  The handler first clears the cancel flag,
starts the progress bar and enables Cancel; `disk = none` models
`os.statvfs` raising, which propagates out of the handler after the
"Checking storage" message, spawning nothing and leaving the progress
bar running and Cancel enabled. -/
def check_storage_and_install_bitcoin (pathExists confirmUpdate : Bool)
    (disk : Option ℚ) : StorageResult :=
  if pathExists && !confirmUpdate then
    { msgs := [StorageMsg.skipping], spawned := none, raised := false,
      progressRunning := false, cancelEnabled := true, runButtonsEnabled := true }
  else
    match disk with
    | none =>
      { msgs := [StorageMsg.checking], spawned := none, raised := true,
        progressRunning := true, cancelEnabled := true, runButtonsEnabled := false }
    | some f =>
      if 600 < f then
        { msgs := [StorageMsg.checking, StorageMsg.detectedFull f], spawned := some false,
          raised := false, progressRunning := true, cancelEnabled := true,
          runButtonsEnabled := false }
      else if 10 < f then
        { msgs := [StorageMsg.checking, StorageMsg.detectedPruned f], spawned := some true,
          raised := false, progressRunning := true, cancelEnabled := true,
          runButtonsEnabled := false }
      else
        { msgs := [StorageMsg.checking, StorageMsg.insufficient f], spawned := none,
          raised := false, progressRunning := false, cancelEnabled := true,
          runButtonsEnabled := false }

/-- Translation of `InstallPage.check_storage_and_install_whive`
(melaninclick.py:542-566): a single 10 GB threshold, worker always
spawned with `prune = False`. -/
def check_storage_and_install_whive (pathExists confirmUpdate : Bool)
    (disk : Option ℚ) : StorageResult :=
  if pathExists && !confirmUpdate then
    { msgs := [StorageMsg.skippingWhive], spawned := none, raised := false,
      progressRunning := false, cancelEnabled := true, runButtonsEnabled := true }
  else
    match disk with
    | none =>
      { msgs := [StorageMsg.checkingWhive], spawned := none, raised := true,
        progressRunning := true, cancelEnabled := true, runButtonsEnabled := false }
    | some f =>
      if 10 < f then
        { msgs := [StorageMsg.checkingWhive, StorageMsg.installingWhive f],
          spawned := some false, raised := false, progressRunning := true,
          cancelEnabled := true, runButtonsEnabled := false }
      else
        { msgs := [StorageMsg.checkingWhive, StorageMsg.insufficientWhive f],
          spawned := none, raised := false, progressRunning := false,
          cancelEnabled := true, runButtonsEnabled := false }

/-- C3: on a fresh install (no existing directory) the bitcoin handler
spawns a full-node worker iff free space exceeds 600 GB, a pruned worker
iff free space is in (10, 600] GB, and spawns nothing while emitting an
error-severity message iff free space is at most 10 GB; the whive
handler spawns its worker iff free space exceeds 10 GB, and otherwise
spawns nothing and emits an error-severity message. -/
theorem C3_free_space_gate (f : ℚ) :
    ((check_storage_and_install_bitcoin false false (some f)).spawned = some false ↔ 600 < f)
    ∧ ((check_storage_and_install_bitcoin false false (some f)).spawned = some true
        ↔ (10 < f ∧ f ≤ 600))
    ∧ (((check_storage_and_install_bitcoin false false (some f)).spawned = none
        ∧ (check_storage_and_install_bitcoin false false (some f)).msgs.any
            StorageMsg.isError = true) ↔ f ≤ 10)
    ∧ ((check_storage_and_install_whive false false (some f)).spawned = some false ↔ 10 < f)
    ∧ ((check_storage_and_install_whive false false (some f)).msgs.any
        StorageMsg.isError = true ↔ f ≤ 10) := by
  rcases le_or_lt f 10 with h10 | h10
  · have h6 : ¬ 600 < f := by linarith
    have h10n : ¬ 10 < f := not_lt.2 h10
    simp [check_storage_and_install_bitcoin, check_storage_and_install_whive,
      StorageMsg.isError, h6, h10n, h10]
  · rcases le_or_lt f 600 with h6 | h6
    · have h6n : ¬ 600 < f := not_lt.2 h6
      simp [check_storage_and_install_bitcoin, check_storage_and_install_whive,
        StorageMsg.isError, h6n, h10, h6, not_lt.2 h10.le]
    · simp [check_storage_and_install_bitcoin, check_storage_and_install_whive,
        StorageMsg.isError, h6, h10, not_lt.2 h10.le]

/-- C6 counterexample: when the free-space query raises (macOS/Linux
`os.statvfs` failure), the handler aborts with an uncaught exception: no
worker is spawned, but no error-severity message is emitted either and
the progress bar is left running — the failure is not reported as an
insufficient-space error. -/
theorem C6_counterexample :
    (check_storage_and_install_bitcoin false false none).raised = true
    ∧ (check_storage_and_install_bitcoin false false none).spawned = none
    ∧ (check_storage_and_install_bitcoin false false none).msgs.any StorageMsg.isError = false
    ∧ (check_storage_and_install_bitcoin false false none).progressRunning = true := by
  decide

/-- C6 amended: the install never proceeds on an unknown amount — a
raising query spawns no worker for either software — but only the
Windows query path is fail-safe in the claimed sense: a failed Windows
query reports 0 GB, which is rejected as insufficient with an
error-severity message; on macOS/Linux the raise escapes the handler
without any error message. -/
theorem C6_amended (pe c : Bool) (v : ℚ) :
    (check_storage_and_install_bitcoin pe c none).spawned = none
    ∧ (check_storage_and_install_whive pe c none).spawned = none
    ∧ check_disk_space_windows false v = 0
    ∧ (check_storage_and_install_bitcoin false false
        (some (check_disk_space_windows false v))).spawned = none
    ∧ (check_storage_and_install_bitcoin false false
        (some (check_disk_space_windows false v))).msgs.any StorageMsg.isError = true
    ∧ (check_storage_and_install_bitcoin pe c none).msgs.any StorageMsg.isError = false := by
  cases pe <;> cases c <;>
    norm_num [check_storage_and_install_bitcoin, check_storage_and_install_whive,
      check_disk_space_windows, StorageMsg.isError]

/-! ## Configuration generator (melaninclick.py:706-739,
melaninclick_macos.py:531-561)

`create_bitcoin_conf` builds the list of key=value lines and writes them
newline-joined; the embedding returns the line list. -/

/-- Translation of `InstallPage.create_bitcoin_conf`
(melaninclick.py:706-739): base lines, optional prune directive, per-OS
dbcache (Linux 450, macOS 800, Windows 1024, nothing for any other OS),
per-architecture par (arm64 4, anything else 8), in append order. -/
def create_bitcoin_conf (os_type : OS) (arch : Arch) (prune : Bool) : List String :=
  let base := ["daemon=1", "txindex=1"]
  let withPrune := if prune then base ++ ["prune=550"] else base
  let withDb :=
    match os_type with
    | OS.linux => withPrune ++ ["dbcache=450"]
    | OS.darwin => withPrune ++ ["dbcache=800"]
    | OS.windows => withPrune ++ ["dbcache=1024"]
    | OS.other => withPrune
  if arch = Arch.arm64 then withDb ++ ["par=4"] else withDb ++ ["par=8"]

/-- Translation of `InstallPage.create_bitcoin_conf` from the macOS
variant (melaninclick_macos.py:531-561): identical except that only
Linux and Darwin get a dbcache line (that variant refuses to run on
other systems). -/
def create_bitcoin_conf_macos (os_type : OS) (arch : Arch) (prune : Bool) : List String :=
  let base := ["daemon=1", "txindex=1"]
  let withPrune := if prune then base ++ ["prune=550"] else base
  let withDb :=
    match os_type with
    | OS.linux => withPrune ++ ["dbcache=450"]
    | OS.darwin => withPrune ++ ["dbcache=800"]
    | _ => withPrune
  if arch = Arch.arm64 then withDb ++ ["par=4"] else withDb ++ ["par=8"]

/-- The line list exactly as claim C8 states it: daemon=1, txindex=1,
prune=550 exactly when pruning, the per-OS dbcache constant, then the
per-architecture par value. -/
def claimedConfLines (os_type : OS) (arch : Arch) (prune : Bool) : List String :=
  ["daemon=1", "txindex=1"]
    ++ (if prune then ["prune=550"] else [])
    ++ [match os_type with
        | OS.linux => "dbcache=450"
        | OS.darwin => "dbcache=800"
        | _ => "dbcache=1024"]
    ++ [if arch = Arch.arm64 then "par=4" else "par=8"]

/-- True when some line of the configuration starts with "prune=". -/
def hasPruneLine (lines : List String) : Bool :=
  lines.any (fun l => startsWithChars "prune=".data l.data)

/-- C8: for the three supported operating systems, `create_bitcoin_conf`
produces exactly the claimed ordered line list — daemon=1, txindex=1,
prune=550 exactly when prune is true, the per-OS dbcache line (450
Linux, 800 macOS, 1024 Windows), then the per-architecture par line (4
arm64, 8 otherwise) — and the output contains a prune= line iff prune is
true; the macOS variant agrees on the systems it runs on (Linux,
macOS). -/
theorem C8_conf_lines (os_type : OS) (arch : Arch) (prune : Bool)
    (h : os_type ≠ OS.other) :
    create_bitcoin_conf os_type arch prune = claimedConfLines os_type arch prune
    ∧ hasPruneLine (create_bitcoin_conf os_type arch prune) = prune
    ∧ ((os_type = OS.linux ∨ os_type = OS.darwin) →
        create_bitcoin_conf_macos os_type arch prune = claimedConfLines os_type arch prune) := by
  cases os_type <;> cases arch <;> cases prune <;>
    first
      | exact absurd rfl h
      | exact ⟨by decide, by decide, by decide⟩

/-- Closed witness for C8_conf_lines at (Linux, arm64, prune). -/
theorem C8_witness :
    OS.linux ≠ OS.other
    ∧ (create_bitcoin_conf OS.linux Arch.arm64 true = claimedConfLines OS.linux Arch.arm64 true
        ∧ hasPruneLine (create_bitcoin_conf OS.linux Arch.arm64 true) = true
        ∧ ((OS.linux = OS.linux ∨ OS.linux = OS.darwin) →
            create_bitcoin_conf_macos OS.linux Arch.arm64 true
              = claimedConfLines OS.linux Arch.arm64 true)) :=
  ⟨by decide, C8_conf_lines OS.linux Arch.arm64 true (by decide)⟩

/-! ## Download and extract engine (melaninclick.py:568-635,
melaninclick_macos.py:431-488)

`InstallPage.install` runs on a worker thread.  The embedding maps its
decision inputs — whether `os.makedirs` succeeds, whether the server
declared a total size, how many chunks the download processed, whether
`urlretrieve` completed, the value of `self.cancel_flag` at the single
point where the worker reads it, whether extraction succeeds, and which
configuration files already exist — to the ordered list of observable
events the worker performs, its terminal outcome, whether the temporary
archive file is still present afterwards, and the progress/cancel UI
state once the run (including its `finally` clause and any UI callbacks
it scheduled) has fully settled. -/

/-- Observable events of one install run, one constructor per effect in
the source. -/
inductive Ev
  | downloadStartMsg
  | chunk (i : ℕ)
  | progressMsg (i : ℕ)
  | cancelCheck (seen : Bool)
  | tempRemoved
  | cancelledMsg
  | extractingMsg
  | extracted
  | installedMsg
  | enableButtons
  | confWritten (mainnet : Bool) (prune : Bool)
  | failedMsg
  | progressStopped
  | cancelDisabled
deriving DecidableEq, Repr

/-- True for the two error-severity queue messages of the worker. -/
def Ev.isErrorMsg : Ev → Bool
  | Ev.cancelledMsg => true
  | Ev.failedMsg => true
  | _ => false

/-- True for the cancellation-flag reads. -/
def Ev.isCancelCheck : Ev → Bool
  | Ev.cancelCheck _ => true
  | _ => false

/-- True for downloaded chunks. -/
def Ev.isChunk : Ev → Bool
  | Ev.chunk _ => true
  | _ => false

/-- True for archive extraction. -/
def Ev.isExtracted : Ev → Bool
  | Ev.extracted => true
  | _ => false

/-- True for configuration-file writes. -/
def Ev.isConfWritten : Ev → Bool
  | Ev.confWritten _ _ => true
  | _ => false

/-- The events of the download loop: for each chunk the `reporthook`
callback fires (melaninclick.py:580-583); it enqueues a percentage
message only when the server declared a total size, and reads nothing
else — in particular it never consults `self.cancel_flag`. -/
def chunkEvents (sizeKnown : Bool) : ℕ → List Ev
  | 0 => []
  | n + 1 =>
    chunkEvents sizeKnown n
      ++ (Ev.chunk n :: (if sizeKnown then [Ev.progressMsg n] else []))

/-- Terminal outcome of a worker run. -/
inductive Outcome
  | success
  | cancelled
  | failed
  | crashed
deriving DecidableEq, Repr

/-- Result of one install run: its ordered event list, terminal outcome,
whether the temporary archive remains on disk, and the progress-bar /
Cancel-button state after the run has fully settled (both are true on
entry, set by the storage-checking handler). -/
structure RunResult where
  events : List Ev
  outcome : Outcome
  tempFilePresent : Bool
  progressRunning : Bool
  cancelEnabled : Bool
deriving DecidableEq, Repr

/-- Translation of `InstallPage.install` (melaninclick.py:568-635).
Control flow: opening message and `os.makedirs` precede the `try`
(lines 569-576), so a makedirs failure kills the worker before any
cleanup handler is installed; the download loop fires `reporthook` per
chunk; `self.cancel_flag` is read exactly once, after `urlretrieve`
returns (line 587); the cancel branch removes the file, queues the
error-severity cancellation message, stops the progress bar, disables
Cancel and returns (the `finally` then repeats the stop/disable); the
extract branch queues the extracting message, extracts, removes the
archive, queues the success message, schedules button enabling and — for
bitcoin only, when `~/.bitcoin/mainnet/bitcoin.conf` is absent — writes
one configuration file with the run's own prune flag (lines 622-628);
any exception in the `try` body reaches the handler which queues the
error-severity failure message; the `finally` stops the progress bar and
disables Cancel. -/
def installRun (sw : Software) (prune : Bool) (makedirsOk sizeKnown : Bool) (numChunks : ℕ)
    (downloadOk cancelSeen extractOk mainnetConfAbsent : Bool) : RunResult :=
  if makedirsOk then
    if downloadOk then
      let pre := Ev.downloadStartMsg :: chunkEvents sizeKnown numChunks
      if cancelSeen then
        { events := pre ++ [Ev.cancelCheck true, Ev.tempRemoved, Ev.cancelledMsg,
            Ev.progressStopped, Ev.cancelDisabled, Ev.progressStopped, Ev.cancelDisabled],
          outcome := Outcome.cancelled, tempFilePresent := false,
          progressRunning := false, cancelEnabled := false }
      else
        if extractOk then
          let post :=
            match sw with
            | Software.bitcoin =>
              Ev.enableButtons ::
                (if mainnetConfAbsent then [Ev.confWritten true prune] else [])
            | Software.whive => [Ev.enableButtons]
          { events := pre ++ [Ev.cancelCheck false, Ev.extractingMsg, Ev.extracted,
              Ev.tempRemoved, Ev.installedMsg] ++ post
              ++ [Ev.progressStopped, Ev.cancelDisabled],
            outcome := Outcome.success, tempFilePresent := false,
            progressRunning := false, cancelEnabled := false }
        else
          { events := pre ++ [Ev.cancelCheck false, Ev.extractingMsg, Ev.failedMsg,
              Ev.progressStopped, Ev.cancelDisabled],
            outcome := Outcome.failed, tempFilePresent := true,
            progressRunning := false, cancelEnabled := false }
    else
      { events := Ev.downloadStartMsg :: chunkEvents sizeKnown numChunks
          ++ [Ev.failedMsg, Ev.progressStopped, Ev.cancelDisabled],
        outcome := Outcome.failed, tempFilePresent := true,
        progressRunning := false, cancelEnabled := false }
  else
    { events := [Ev.downloadStartMsg], outcome := Outcome.crashed,
      tempFilePresent := false, progressRunning := true, cancelEnabled := true }

/-- Translation of `InstallPage.install` from the macOS variant
(melaninclick_macos.py:431-488).  Differences from the cross-platform
version: the cancel branch returns without its own stop/disable (they
happen only through the `finally`, which schedules them with
`self.after(0, ...)` — modelled as having taken effect once the run
settles); on success for bitcoin BOTH configuration variants are written
when absent — mainnet with `prune=False` and pruned with `prune=True` —
regardless of the `prune` argument, which this variant never uses
(lines 470-479). -/
def installRunMac (sw : Software) (makedirsOk sizeKnown : Bool) (numChunks : ℕ)
    (downloadOk cancelSeen extractOk mainnetConfAbsent prunedConfAbsent : Bool) : RunResult :=
  if makedirsOk then
    if downloadOk then
      let pre := Ev.downloadStartMsg :: chunkEvents sizeKnown numChunks
      if cancelSeen then
        { events := pre ++ [Ev.cancelCheck true, Ev.tempRemoved, Ev.cancelledMsg,
            Ev.progressStopped, Ev.cancelDisabled],
          outcome := Outcome.cancelled, tempFilePresent := false,
          progressRunning := false, cancelEnabled := false }
      else
        if extractOk then
          let post :=
            match sw with
            | Software.bitcoin =>
              Ev.enableButtons ::
                ((if mainnetConfAbsent then [Ev.confWritten true false] else [])
                  ++ (if prunedConfAbsent then [Ev.confWritten false true] else []))
            | Software.whive => [Ev.enableButtons]
          { events := pre ++ [Ev.cancelCheck false, Ev.extractingMsg, Ev.extracted,
              Ev.tempRemoved, Ev.installedMsg] ++ post
              ++ [Ev.progressStopped, Ev.cancelDisabled],
            outcome := Outcome.success, tempFilePresent := false,
            progressRunning := false, cancelEnabled := false }
        else
          { events := pre ++ [Ev.cancelCheck false, Ev.extractingMsg, Ev.failedMsg,
              Ev.progressStopped, Ev.cancelDisabled],
            outcome := Outcome.failed, tempFilePresent := true,
            progressRunning := false, cancelEnabled := false }
    else
      { events := Ev.downloadStartMsg :: chunkEvents sizeKnown numChunks
          ++ [Ev.failedMsg, Ev.progressStopped, Ev.cancelDisabled],
        outcome := Outcome.failed, tempFilePresent := true,
        progressRunning := false, cancelEnabled := false }
  else
    { events := [Ev.downloadStartMsg], outcome := Outcome.crashed,
      tempFilePresent := false, progressRunning := true, cancelEnabled := true }

/-- The download loop performs no cancellation-flag reads, queues no
error messages, extracts nothing and writes no configuration: counting
any such predicate over `chunkEvents` gives zero. -/
theorem chunkEvents_countP_zero (sizeKnown : Bool) (n : ℕ) (p : Ev → Bool)
    (hc : ∀ i, p (Ev.chunk i) = false) (hm : ∀ i, p (Ev.progressMsg i) = false) :
    (chunkEvents sizeKnown n).countP p = 0 := by
  induction n with
  | zero => rfl
  | succ k ih =>
    cases sizeKnown <;>
      simp [chunkEvents, List.countP_append, List.countP_cons, ih, hc, hm]

/-- The download loop downloads exactly its chunk count. -/
theorem chunkEvents_countP_chunk (sizeKnown : Bool) (n : ℕ) :
    (chunkEvents sizeKnown n).countP Ev.isChunk = n := by
  induction n with
  | zero => rfl
  | succ k ih =>
    cases sizeKnown <;>
      simp [chunkEvents, List.countP_append, List.countP_cons, ih, Ev.isChunk]

/-- Events that never occur in the download loop are not members of it. -/
theorem notMem_chunkEvents (sizeKnown : Bool) (n : ℕ) (e : Ev)
    (hc : ∀ i, e ≠ Ev.chunk i) (hm : ∀ i, e ≠ Ev.progressMsg i) :
    e ∉ chunkEvents sizeKnown n := by
  induction n with
  | zero => simp [chunkEvents]
  | succ k ih =>
    cases sizeKnown <;> simp [chunkEvents, ih, hc, hm]

/-- C4 counterexample: a run that downloads two chunks with the
cancellation flag already set performs no flag check between the chunks
— the whole download completes and the flag is consulted exactly once,
after completion, not after each chunk. -/
theorem C4_counterexample :
    (installRun Software.bitcoin false true true 2 true true true true).events
      = [Ev.downloadStartMsg, Ev.chunk 0, Ev.progressMsg 0, Ev.chunk 1, Ev.progressMsg 1,
          Ev.cancelCheck true, Ev.tempRemoved, Ev.cancelledMsg,
          Ev.progressStopped, Ev.cancelDisabled, Ev.progressStopped, Ev.cancelDisabled]
    ∧ (installRun Software.bitcoin false true true 2 true true true
        true).events.countP Ev.isCancelCheck = 1
    ∧ (installRun Software.bitcoin false true true 2 true true true
        true).events.countP Ev.isChunk = 2 := by
  refine ⟨by decide, by decide, by decide⟩

/-- C4 amended: the cancellation flag is read exactly once per run,
after download completion (the per-chunk callback never consults it, so
every chunk is downloaded regardless of the flag); whenever that single
check finds the flag set, the temporary archive is deleted, exactly one
error-severity message — the cancellation message — is emitted, and the
run terminates as Cancelled with nothing extracted. -/
theorem C4_amended (sw : Software) (prune sizeKnown extractOk confAbsent : Bool) (n : ℕ) :
    (installRun sw prune true sizeKnown n true true extractOk confAbsent).outcome
        = Outcome.cancelled
    ∧ (installRun sw prune true sizeKnown n true true extractOk
        confAbsent).tempFilePresent = false
    ∧ (installRun sw prune true sizeKnown n true true extractOk
        confAbsent).events.countP Ev.isErrorMsg = 1
    ∧ Ev.cancelledMsg ∈ (installRun sw prune true sizeKnown n true true extractOk
        confAbsent).events
    ∧ (installRun sw prune true sizeKnown n true true extractOk
        confAbsent).events.countP Ev.isCancelCheck = 1
    ∧ (installRun sw prune true sizeKnown n true true extractOk
        confAbsent).events.countP Ev.isExtracted = 0
    ∧ (installRun sw prune true sizeKnown n true true extractOk
        confAbsent).events.countP Ev.isChunk = n := by
  have herr := chunkEvents_countP_zero sizeKnown n Ev.isErrorMsg
    (fun i => rfl) (fun i => rfl)
  have hchk := chunkEvents_countP_zero sizeKnown n Ev.isCancelCheck
    (fun i => rfl) (fun i => rfl)
  have hext := chunkEvents_countP_zero sizeKnown n Ev.isExtracted
    (fun i => rfl) (fun i => rfl)
  have hchn := chunkEvents_countP_chunk sizeKnown n
  refine ⟨rfl, rfl, ?_, ?_, ?_, ?_, ?_⟩ <;>
    simp [installRun, List.countP_append, List.countP_cons, herr, hchk, hext, hchn,
      Ev.isErrorMsg, Ev.isCancelCheck, Ev.isExtracted, Ev.isChunk]

/-- C5 counterexample: when extraction fails, the run reports the
error-severity failure message but the downloaded temporary archive is
never removed — `os.remove` sits after the extraction call inside the
`try` body, so the exception skips it and no handler deletes the file. -/
theorem C5_counterexample :
    (installRun Software.bitcoin false true true 1 true false false true).outcome
        = Outcome.failed
    ∧ (installRun Software.bitcoin false true true 1 true false false
        true).tempFilePresent = true
    ∧ Ev.failedMsg ∈ (installRun Software.bitcoin false true true 1 true false false
        true).events
    ∧ Ev.tempRemoved ∉ (installRun Software.bitcoin false true true 1 true false false
        true).events := by
  refine ⟨by decide, by decide, by decide, by decide⟩

/-- C5 amended: when archive extraction fails, the run emits exactly one
error-severity message and terminates as Failed, but the downloaded
temporary archive file is left in the destination directory — the file
is deleted only on the success path and on the post-download
cancellation path. -/
theorem C5_amended (sw : Software) (prune sizeKnown confAbsent : Bool) (n : ℕ) :
    (installRun sw prune true sizeKnown n true false false confAbsent).outcome
        = Outcome.failed
    ∧ (installRun sw prune true sizeKnown n true false false
        confAbsent).tempFilePresent = true
    ∧ (installRun sw prune true sizeKnown n true false false
        confAbsent).events.countP Ev.isErrorMsg = 1
    ∧ Ev.failedMsg ∈ (installRun sw prune true sizeKnown n true false false
        confAbsent).events
    ∧ Ev.tempRemoved ∉ (installRun sw prune true sizeKnown n true false false
        confAbsent).events := by
  have herr := chunkEvents_countP_zero sizeKnown n Ev.isErrorMsg
    (fun i => rfl) (fun i => rfl)
  have hnm := notMem_chunkEvents sizeKnown n Ev.tempRemoved
    (fun i h => Ev.noConfusion h) (fun i h => Ev.noConfusion h)
  refine ⟨rfl, rfl, ?_, ?_, ?_⟩ <;>
    simp [installRun, List.countP_append, List.countP_cons, herr, hnm, Ev.isErrorMsg]

/-- C7 counterexample: a successful pruned-mode bitcoin install in the
cross-platform variant writes exactly one configuration file — the
mainnet one, and with `prune=550` in it (the run's own prune flag) — and
never writes the pruned-directory variant, contradicting the claim that
both variants are written with the mainnet one non-pruned. -/
theorem C7_counterexample :
    (installRun Software.bitcoin true true true 1 true false true true).outcome
        = Outcome.success
    ∧ Ev.confWritten true true ∈ (installRun Software.bitcoin true true true 1 true false true
        true).events
    ∧ (installRun Software.bitcoin true true true 1 true false true
        true).events.countP Ev.isConfWritten = 1
    ∧ Ev.confWritten false true ∉ (installRun Software.bitcoin true true true 1 true false true
        true).events
    ∧ Ev.confWritten true false ∉ (installRun Software.bitcoin true true true 1 true false true
        true).events := by
  refine ⟨by decide, by decide, by decide, by decide, by decide⟩

/-- C7 amended: only the macOS variant writes both configuration
variants on a successful bitcoin install — mainnet non-pruned and pruned
with `prune=550`, each exactly when absent; the cross-platform variant
writes exactly one configuration file, the mainnet one when absent, and
with the run's own prune flag; whive installs write no node
configuration in either variant. -/
theorem C7_amended (sizeKnown : Bool) (n : ℕ) (prune mAbs pAbs cAbs : Bool) :
    ((installRunMac Software.bitcoin true sizeKnown n true false true mAbs
        pAbs).events.countP Ev.isConfWritten
      = (if mAbs then 1 else 0) + (if pAbs then 1 else 0))
    ∧ (Ev.confWritten true false ∈ (installRunMac Software.bitcoin true sizeKnown n true false
        true mAbs pAbs).events ↔ mAbs = true)
    ∧ (Ev.confWritten false true ∈ (installRunMac Software.bitcoin true sizeKnown n true false
        true mAbs pAbs).events ↔ pAbs = true)
    ∧ ((installRun Software.bitcoin prune true sizeKnown n true false true
        cAbs).events.countP Ev.isConfWritten = if cAbs then 1 else 0)
    ∧ (Ev.confWritten true prune ∈ (installRun Software.bitcoin prune true sizeKnown n true
        false true cAbs).events ↔ cAbs = true)
    ∧ ((installRun Software.whive prune true sizeKnown n true false true
        cAbs).events.countP Ev.isConfWritten = 0)
    ∧ ((installRunMac Software.whive true sizeKnown n true false true mAbs
        pAbs).events.countP Ev.isConfWritten = 0) := by
  have hcw := chunkEvents_countP_zero sizeKnown n Ev.isConfWritten
    (fun i => rfl) (fun i => rfl)
  have hm1 := notMem_chunkEvents sizeKnown n (Ev.confWritten true false)
    (fun i h => Ev.noConfusion h) (fun i h => Ev.noConfusion h)
  have hm2 := notMem_chunkEvents sizeKnown n (Ev.confWritten false true)
    (fun i h => Ev.noConfusion h) (fun i h => Ev.noConfusion h)
  have hm3 := notMem_chunkEvents sizeKnown n (Ev.confWritten true prune)
    (fun i h => Ev.noConfusion h) (fun i h => Ev.noConfusion h)
  cases mAbs <;> cases pAbs <;> cases cAbs <;>
    simp_all [installRun, installRunMac, List.countP_append, List.countP_cons,
      Ev.isConfWritten]

/-- C10 counterexample: `os.makedirs` runs before the `try` in both
variants, so a directory-creation failure terminates the worker without
reaching the `finally`: the progress indicator is left running and the
Cancel button stays enabled. -/
theorem C10_counterexample :
    (installRun Software.bitcoin false false true 0 true false true true).outcome
        = Outcome.crashed
    ∧ (installRun Software.bitcoin false false true 0 true false true
        true).progressRunning = true
    ∧ (installRun Software.bitcoin false false true 0 true false true
        true).cancelEnabled = true
    ∧ (installRunMac Software.bitcoin false true 0 true false true true
        true).progressRunning = true
    ∧ (installRunMac Software.bitcoin false true 0 true false true true
        true).cancelEnabled = true := by
  refine ⟨by decide, by decide, by decide, by decide, by decide⟩

/-- C10 amended: on every termination path that reaches the `try`
statement — success, cancellation, download failure or extraction
failure — the `finally` clause stops the progress indicator and disables
the Cancel button before the worker exits (in the macOS variant via UI
callbacks it schedules before exiting); only an exception in the pre-try
directory creation escapes without doing either. -/
theorem C10_amended (sw : Software)
    (prune sizeKnown dOk cSeen eOk mAbs pAbs cAbs : Bool) (n : ℕ) :
    (installRun sw prune true sizeKnown n dOk cSeen eOk cAbs).progressRunning = false
    ∧ (installRun sw prune true sizeKnown n dOk cSeen eOk cAbs).cancelEnabled = false
    ∧ (installRunMac sw true sizeKnown n dOk cSeen eOk mAbs pAbs).progressRunning = false
    ∧ (installRunMac sw true sizeKnown n dOk cSeen eOk mAbs pAbs).cancelEnabled = false := by
  cases dOk <;> cases cSeen <;> cases eOk <;> exact ⟨rfl, rfl, rfl, rfl⟩

/-! ## Progress-message queue drain (melaninclick.py:942-957,
melaninclick_macos.py:722-726)

Workers enqueue `(text, tag)` tuples; `process_queue` drains the queue
on the UI thread.  The queue content at drain time is modelled as the
FIFO list of pending items. -/

/-- A queued item in the cross-platform variant: workers always enqueue
2-tuples, but `process_queue` also accepts a bare value, displayed with
no tag (melaninclick.py:947-950). -/
inductive QItem
  | tup (text : String) (tag : Option String)
  | raw (text : String)
deriving DecidableEq

/-- What one dequeued item displays (melaninclick.py:947-951). -/
def displayOf : QItem → String × Option String
  | QItem.tup t g => (t, g)
  | QItem.raw t => (t, none)

/-- Translation of the cross-platform `InstallPage.process_queue` drain
loop (melaninclick.py:944-951): while the queue is non-empty, dequeue
one item and display it. -/
def process_queue_drain : List QItem → List (String × Option String)
  | [] => []
  | m :: rest => displayOf m :: process_queue_drain rest

/-- Translation of the macOS `InstallPage.process_queue` drain loop
(melaninclick_macos.py:723-725).  The line
`msg, tag = self.message_queue.get() if isinstance(self.message_queue.get(), tuple) else ...`
calls `get()` twice per iteration: the first call consumes an item
merely to test `isinstance` (every enqueued item is a tuple, so the test
is true), and the second call consumes and displays the next item.  On a
queue of odd length the second `get()` blocks forever on an empty queue,
modelled as `none`. -/
def process_queue_drain_macos : List (String × Option String) →
    Option (List (String × Option String))
  | [] => some []
  | [_] => none
  | _ :: b :: rest => (process_queue_drain_macos rest).map (fun d => b :: d)

/-- C9: the macOS drain violates exactly-once FIFO display — of two
enqueued messages only the second is displayed and the first is silently
discarded, and a single pending message blocks the UI thread — while the
cross-platform drain displays every queued item exactly once in FIFO
order. -/
theorem C9_queue_drain_bug :
    process_queue_drain_macos
        [("Extracting whive...", none), ("Whive installed successfully!", some "success")]
      = some [("Whive installed successfully!", some "success")]
    ∧ process_queue_drain_macos [("Extracting whive...", none)] = none
    ∧ process_queue_drain
        [QItem.tup "Extracting whive..." none,
          QItem.tup "Whive installed successfully!" (some "success")]
      = [("Extracting whive...", none), ("Whive installed successfully!", some "success")] := by
  refine ⟨by decide, by decide, by decide⟩

/-- In the cross-platform variant every enqueued item is displayed
exactly once, in enqueue order. -/
theorem process_queue_drain_fifo (q : List QItem) :
    process_queue_drain q = q.map displayOf := by
  induction q with
  | nil => rfl
  | cons m rest ih => simp [process_queue_drain, ih]

/-! ## Install orchestrator (melaninclick.py:398-566, 630-635)

The UI-facing state machine: which buttons are enabled, whether the
progress bar runs, the shared cancellation flag, and how many install
workers are live per software.  The "Install Bitcoin Core" and "Install
Whive Core" buttons are created enabled (melaninclick.py:448, 475) and
no code path ever reconfigures their state, so a click on them is
possible in every state; clicking runs the storage-checking handler,
which spawns a worker whenever the free-space gate passes.  A worker's
termination (its `finally` clause) stops the progress bar, disables
Cancel, and on success enables the run/status buttons. -/

structure OrchState where
  cancelFlag : Bool
  progressRunning : Bool
  cancelEnabled : Bool
  installBitcoinEnabled : Bool
  installWhiveEnabled : Bool
  bitcoinWorkers : ℕ
  whiveWorkers : ℕ
  bitcoinButtonsEnabled : Bool
  whiveButtonsEnabled : Bool
deriving DecidableEq, Repr

/-- Initial state after `InstallPage.__init__` (melaninclick.py:400-444):
install buttons enabled, everything else off. -/
def initState : OrchState :=
  { cancelFlag := false, progressRunning := false, cancelEnabled := false,
    installBitcoinEnabled := true, installWhiveEnabled := true,
    bitcoinWorkers := 0, whiveWorkers := 0,
    bitcoinButtonsEnabled := false, whiveButtonsEnabled := false }

/-- External events driving the orchestrator: button clicks (with the
environment outcomes the click observes: existing install directory,
update confirmation, free-space query result) and worker terminations
(`ok` = the run succeeded and enabled the software's buttons). -/
inductive OrchEvent
  | clickInstallBitcoin (pathExists confirmUpdate : Bool) (disk : Option ℚ)
  | clickInstallWhive (pathExists confirmUpdate : Bool) (disk : Option ℚ)
  | clickCancel
  | bitcoinWorkerDone (ok : Bool)
  | whiveWorkerDone (ok : Bool)

/-- One orchestrator step.  Clicks are guarded by their button's enabled
state (a disabled widget does not fire); the install-click branches
mirror `check_storage_and_install_bitcoin` / `_whive`
(melaninclick.py:509-566): clear the flag, start progress, enable
Cancel, then either skip (declined update), abort (raising disk query),
spawn a worker (gate passed) or stop with an insufficient-space error;
`clickCancel` mirrors `cancel_install` (melaninclick.py:959-962);
worker-done events mirror the `finally` clause and the success-path
button enabling of `install` (melaninclick.py:616-635). -/
def orchStep (s : OrchState) : OrchEvent → OrchState
  | OrchEvent.clickInstallBitcoin pathExists confirmUpdate disk =>
    if s.installBitcoinEnabled then
      let s1 := { s with cancelFlag := false, progressRunning := true, cancelEnabled := true }
      if pathExists && !confirmUpdate then
        { s1 with bitcoinButtonsEnabled := true, progressRunning := false }
      else
        match disk with
        | none => s1
        | some f =>
          if 10 < f then { s1 with bitcoinWorkers := s1.bitcoinWorkers + 1 }
          else { s1 with progressRunning := false }
    else s
  | OrchEvent.clickInstallWhive pathExists confirmUpdate disk =>
    if s.installWhiveEnabled then
      let s1 := { s with cancelFlag := false, progressRunning := true, cancelEnabled := true }
      if pathExists && !confirmUpdate then
        { s1 with whiveButtonsEnabled := true, progressRunning := false }
      else
        match disk with
        | none => s1
        | some f =>
          if 10 < f then { s1 with whiveWorkers := s1.whiveWorkers + 1 }
          else { s1 with progressRunning := false }
    else s
  | OrchEvent.clickCancel =>
    if s.cancelEnabled then { s with cancelFlag := true } else s
  | OrchEvent.bitcoinWorkerDone ok =>
    if 0 < s.bitcoinWorkers then
      { s with
          bitcoinWorkers := s.bitcoinWorkers - 1, progressRunning := false,
          cancelEnabled := false,
          bitcoinButtonsEnabled := s.bitcoinButtonsEnabled || ok }
    else s
  | OrchEvent.whiveWorkerDone ok =>
    if 0 < s.whiveWorkers then
      { s with
          whiveWorkers := s.whiveWorkers - 1, progressRunning := false,
          cancelEnabled := false,
          whiveButtonsEnabled := s.whiveButtonsEnabled || ok }
    else s

/-- Run the orchestrator over an event trace from the initial state. -/
def orchRun (evs : List OrchEvent) : OrchState :=
  evs.foldl orchStep initState

/-- C1 counterexample: two consecutive clicks on "Install Bitcoin Core"
with 650 GB free — a reachable trace — leave two live install workers
for the same software id, and already after the first click (one worker
in its Downloading phase) the triggering button is still enabled. -/
theorem C1_counterexample :
    (orchRun [OrchEvent.clickInstallBitcoin false false (some 650)]).bitcoinWorkers = 1
    ∧ (orchRun [OrchEvent.clickInstallBitcoin false false
        (some 650)]).installBitcoinEnabled = true
    ∧ (orchRun [OrchEvent.clickInstallBitcoin false false (some 650),
        OrchEvent.clickInstallBitcoin false false (some 650)]).bitcoinWorkers = 2 := by
  refine ⟨by decide, by decide, by decide⟩

/-- No orchestrator step ever changes the install buttons' enabled
state. -/
theorem orchStep_preserves_installEnabled (s : OrchState) (e : OrchEvent) :
    (orchStep s e).installBitcoinEnabled = s.installBitcoinEnabled
    ∧ (orchStep s e).installWhiveEnabled = s.installWhiveEnabled := by
  cases e <;> simp only [orchStep] <;>
    repeat' first
      | rfl
      | split
      | constructor

/-- C1 amended: the orchestrator does not enforce at-most-one live
install per software id — the install-triggering buttons remain enabled
in every reachable state (no code path ever disables them), and a
further install click while a worker is live, with an existing-install
check passed and the free-space gate satisfied, spawns an additional
concurrent worker for the same software id; only the Cancel button and
the per-software run/status buttons are toggled around a run. -/
theorem C1_amended :
    (∀ evs : List OrchEvent,
      (orchRun evs).installBitcoinEnabled = true
      ∧ (orchRun evs).installWhiveEnabled = true)
    ∧ (∀ (s : OrchState) (f : ℚ), s.installBitcoinEnabled = true → 10 < f →
        (orchStep s (OrchEvent.clickInstallBitcoin false false (some f))).bitcoinWorkers
          = s.bitcoinWorkers + 1) := by
  constructor
  · intro evs
    suffices h : ∀ (l : List OrchEvent) (s : OrchState),
        s.installBitcoinEnabled = true → s.installWhiveEnabled = true →
        (l.foldl orchStep s).installBitcoinEnabled = true
        ∧ (l.foldl orchStep s).installWhiveEnabled = true by
      exact h evs initState rfl rfl
    intro l
    induction l with
    | nil => intro s h1 h2; exact ⟨h1, h2⟩
    | cons e rest ih =>
      intro s h1 h2
      have hp := orchStep_preserves_installEnabled s e
      exact ih (orchStep s e) (hp.1.trans h1) (hp.2.trans h2)
  · intro s f hen hf
    simp [orchStep, hen, hf]

/-- Closed witness for C1_amended at the initial state with 650 GB free. -/
theorem C1_witness :
    (initState.installBitcoinEnabled = true ∧ (10 : ℚ) < 650)
    ∧ (orchStep initState (OrchEvent.clickInstallBitcoin false false
        (some 650))).bitcoinWorkers = initState.bitcoinWorkers + 1 :=
  ⟨⟨rfl, by norm_num⟩,
    C1_amended.2 initState 650 rfl (by norm_num)⟩

end MelaninClick
